import Mathlib

/-!
Verification of the Darwincode evolutionary code-search engine against its
natural-language specification.  The Python sources under `src/darwincode/`
are shallowly embedded: dataclasses become structures, floats become `ℚ`,
`None`-able fields become `Option`, and external effects (subprocesses,
filesystem, the LLM oracle) become explicit environment parameters.
-/

set_option maxHeartbeats 1000000

namespace Darwincode

/-! ## Data model (src/darwincode/types/models.py) -/

/-- `AgentStatus` enum from models.py. -/
inductive AgentStatus
  | PENDING
  | RUNNING
  | SUCCESS
  | FAILURE
  | TIMEOUT
  | ERROR
deriving DecidableEq

/-- The `.value` string of each `AgentStatus` member. -/
def AgentStatus.value : AgentStatus → String
  | .PENDING => "pending"
  | .RUNNING => "running"
  | .SUCCESS => "success"
  | .FAILURE => "failure"
  | .TIMEOUT => "timeout"
  | .ERROR => "error"

/-- `RunStatus` enum from models.py. -/
inductive RunStatus
  | PENDING
  | RUNNING
  | COMPLETED
  | FAILED
  | CANCELLED
deriving DecidableEq

/-- The `.value` string of each `RunStatus` member. -/
def RunStatus.value : RunStatus → String
  | .PENDING => "pending"
  | .RUNNING => "running"
  | .COMPLETED => "completed"
  | .FAILED => "failed"
  | .CANCELLED => "cancelled"

/-- `Hypothesis` dataclass from models.py. -/
structure Hypothesis where
  generation : Nat
  winner_id : String
  analysis : String
  prompt_delta : String
deriving DecidableEq

/-- `PlanStep` dataclass from models.py. -/
structure PlanStep where
  index : Nat
  description : String
  prompt : String
deriving DecidableEq

/-- `AgentTask` dataclass from models.py. -/
structure AgentTask where
  id : String
  generation : Nat
  step_index : Nat
  prompt : String
  repo_snapshot_path : String
  parent_hypotheses : List Hypothesis := []
deriving DecidableEq

/-- `AgentResult` dataclass from models.py (`duration_seconds` is a float,
modelled as `ℚ`). -/
structure AgentResult where
  task_id : String
  status : AgentStatus
  output : String
  patch_path : String
  duration_seconds : ℚ
  transcript_path : Option String := none
deriving DecidableEq

/-- `EvalSpec` dataclass from models.py. -/
structure EvalSpec where
  command : String
  timeout : Nat := 120
  success_criteria : String := "exit-code"
  expected_output : Option String := none
  protected_paths : List String := []
deriving DecidableEq

/-- `EvalResult` dataclass from models.py (`score` is a float, modelled as `ℚ`). -/
structure EvalResult where
  task_id : String
  passed : Bool
  score : ℚ
  details : String
deriving DecidableEq

/-- `GenerationRecord` dataclass from models.py. -/
structure GenerationRecord where
  generation : Nat
  step_index : Nat
  tasks : List AgentTask
  results : List AgentResult
  eval_results : List EvalResult
  winner_id : Option String := none
  hypothesis : Option Hypothesis := none
deriving DecidableEq

/-- `RunState` dataclass from models.py. -/
structure RunState where
  id : String
  status : RunStatus
  current_step : Nat
  current_generation : Nat
  plan_steps : List PlanStep := []
  generations : List GenerationRecord := []
  hypotheses : List Hypothesis := []
deriving DecidableEq

/-! ## Analyzer.pick_winner (src/darwincode/orchestrator/analyzer.py)

Python `max(xs, key=k)` returns the first element attaining the maximal key:
it scans left to right and replaces the current best only on a strictly
greater key.  `maxByScore` embeds that scan for `(AgentResult, EvalResult)`
pairs; `bestEval` embeds `max(eval_results, key=lambda e: e.score)` used by
the orchestrator loop. -/

/-- The scan of Python `max(xs, key=sc)` over the tail, starting from the
head: the current best is replaced only on a strictly greater key, so the
first occurrence of the maximal key wins. -/
def pyMaxAcc {α : Type} (sc : α → ℚ) (a : α) (l : List α) : α :=
  l.foldl (fun best q => if sc q > sc best then q else best) a

/-- Python `max(zip(results, eval_results), key=lambda x: x[1].score)`:
first occurrence wins ties. -/
def maxByScore : List (AgentResult × EvalResult) → Option (AgentResult × EvalResult)
  | [] => none
  | p :: ps => some (pyMaxAcc (fun x => x.2.score) p ps)

/-- Python `max(eval_results, key=lambda e: e.score)`: first occurrence wins
ties.  Returns `none` on the empty list (where Python would raise). -/
def bestEval : List EvalResult → Option EvalResult
  | [] => none
  | e :: es => some (pyMaxAcc (fun x => x.score) e es)

/-- `Analyzer.pick_winner` from analyzer.py.  On an empty evaluation list it
returns `None`; otherwise it takes the maximum of `zip(results, eval_results)`
by score and returns its task id if that score is `> 0`.  (When
`eval_results` is non-empty but the zip is empty, Python `max` would raise
`ValueError`; the `none` in that unreachable branch stands for that.) -/
def pick_winner (results : List AgentResult) (eval_results : List EvalResult) :
    Option String :=
  if eval_results.isEmpty then none
  else
    match maxByScore (results.zip eval_results) with
    | none => none
    | some best => if best.2.score > 0 then some best.1.task_id else none

/-! ## Partial-score extraction (src/darwincode/eval/runner.py, _parse_test_score)

`re.search(r"(\d+) passed", output)` finds the leftmost position where a
nonempty digit run is followed by `" passed"`; because the keyword starts with
a space, backtracking inside the digit run can never succeed, so the captured
group is the maximal digit run at that position.  `findCount` embeds that
search (ASCII digits; Python's `\d` additionally matches other Unicode
digits, which no modelled input uses). -/

/-- Numeric value of a digit run, as Python `int` of the matched group. -/
def natOfDigits (ds : List Char) : Nat :=
  ds.foldl (fun n c => 10 * n + (c.toNat - 48)) 0

/-- Leftmost match of the regex `(\d+)` followed by the literal `kw`;
returns the captured count. -/
def findCount (kw : List Char) : List Char → Option Nat
  | [] => none
  | c :: cs =>
    let ds := (c :: cs).takeWhile (·.isDigit)
    let rest := (c :: cs).dropWhile (·.isDigit)
    if ds ≠ [] ∧ kw.isPrefixOf rest then some (natOfDigits ds)
    else findCount kw cs

/-- `_parse_test_score` from runner.py: extract pytest-style counts
(`N passed`, `N failed`, `N error`) from anywhere in the output and return
`passed / (passed + failed + errors)`, or `0.0` when no count is found or
all counts are zero.  (`mkRat passed total` is exactly the quotient
`(passed : ℚ) / (total : ℚ)`, see `mkRat_nat_div` below.) -/
def parse_test_score (output : String) : ℚ :=
  let passed := (findCount " passed".data output.data).getD 0
  let failed := (findCount " failed".data output.data).getD 0
  let errors := (findCount " error".data output.data).getD 0
  let total := passed + failed + errors
  if total > 0 then mkRat passed total else 0

/-! ## Evaluator (src/darwincode/eval/runner.py, EvalRunner.evaluate)

The subprocess run of the scoring command and the workspace filesystem are
external effects; they are embedded as an explicit environment.  The model
additionally reports whether the scoring command was invoked (whether control
reached `asyncio.create_subprocess_shell`). -/

/-- Python `s[:n]` — the first `n` characters of `s`. -/
def pyTake (s : String) (n : Nat) : String :=
  ⟨s.data.take n⟩

/-- Python `s[-n:]` — the last `n` characters of `s`. -/
def pyTakeRight (s : String) (n : Nat) : String :=
  ⟨s.data.drop (s.data.length - n)⟩

/-- ASCII whitespace stripped by Python `str.strip()` (which also strips
some exotic Unicode whitespace no modelled input uses). -/
def isPyWs (c : Char) : Bool :=
  c = ' ' ∨ c = '\t' ∨ c = '\n' ∨ c = '\r' ∨ c = '\x0b' ∨ c = '\x0c'

/-- Python `s.strip()`. -/
def pyStrip (s : String) : String :=
  ⟨((s.data.dropWhile isPyWs).reverse.dropWhile isPyWs).reverse⟩

/-- Python `s.split("\n")` on the character list. -/
def splitNl : List Char → List (List Char)
  | [] => [[]]
  | c :: cs =>
    let rest := splitNl cs
    if c = '\n' then [] :: rest
    else
      match rest with
      | [] => [[c]]
      | l :: ls => (c :: l) :: ls

/-- Python `"\n".join(parts)`. -/
def joinNl : List String → String
  | [] => ""
  | [s] => s
  | s :: rest => s ++ "\n" ++ joinNl rest

/-- Python `needle in haystack` substring test on strings. -/
def containsSub (needle : List Char) : List Char → Bool
  | [] => needle.isEmpty
  | c :: t => needle.isPrefixOf (c :: t) || containsSub needle t

/-- Outcome of the scoring-command subprocess, as seen by `evaluate`:
the `await` can raise `TimeoutError`, raise some other exception, or
complete with an exit code and captured stdout/stderr. -/
inductive CmdOutcome
  | timedOut
  | raised (msg : String)
  | completed (exitCode : Int) (stdout : String) (stderr : String)
deriving DecidableEq

/-- Environment of one `evaluate` call: whether the task's `repo/` directory
exists, and what the scoring command does if invoked. -/
structure EvalEnv where
  repoExists : Bool
  outcome : CmdOutcome
deriving DecidableEq

/-- Result of one `evaluate` call: the returned `EvalResult`, plus whether
control reached the subprocess spawn of the scoring command. -/
structure EvalCall where
  evalResult : EvalResult
  commandInvoked : Bool
deriving DecidableEq

/-- `EvalRunner.evaluate` from runner.py.  Statuses other than
`success`/`failure` short-circuit to a zero-score failure; a missing repo
directory likewise; otherwise the scoring command runs and the pass flag and
score follow the configured success criteria: `exit-code` uses the exit code
with `_parse_test_score` partial credit on failure, `output-match` checks the
expected substring with a binary score, and any other criteria value uses the
exit code with a binary score. -/
def evaluate (env : EvalEnv) (result : AgentResult) (eval_spec : EvalSpec) :
    EvalCall :=
  if result.status ≠ AgentStatus.SUCCESS ∧ result.status ≠ AgentStatus.FAILURE then
    ⟨⟨result.task_id, false, 0,
      "Agent status: " ++ result.status.value ++ ", skipping eval"⟩, false⟩
  else if ¬env.repoExists then
    ⟨⟨result.task_id, false, 0, "Repo directory not found"⟩, false⟩
  else
    match env.outcome with
    | .timedOut =>
      ⟨⟨result.task_id, false, 0,
        "Eval timed out after " ++ toString eval_spec.timeout ++ "s"⟩, true⟩
    | .raised msg =>
      ⟨⟨result.task_id, false, 0, "Eval error: " ++ msg⟩, true⟩
    | .completed exitCode stdout stderr =>
      let output := stdout ++ "\n" ++ stderr
      let res : Bool × ℚ :=
        if eval_spec.success_criteria = "exit-code" then
          let passed := decide (exitCode = 0)
          (passed, if passed then (1 : ℚ) else parse_test_score output)
        else if eval_spec.success_criteria = "output-match" then
          let expected := eval_spec.expected_output.getD ""
          let passed := containsSub expected.data output.data
          (passed, if passed then (1 : ℚ) else 0)
        else
          let passed := decide (exitCode = 0)
          (passed, if passed then (1 : ℚ) else 0)
      ⟨⟨result.task_id, res.1, res.2, pyTakeRight output 2000⟩, true⟩

/-! ## Prompt construction (src/darwincode/agents/claude_code.py) -/

/-- An ASCII apostrophe, spelled via its code point. -/
def apos : String := String.singleton (Char.ofNat 39)

/-- `PROMPT_STRATEGIES` from claude_code.py. -/
def PROMPT_STRATEGIES : List String :=
  ["",
   "Think step by step. Break the problem down before writing code.",
   "Focus on writing minimal, correct code. Prioritize passing tests over completeness.",
   "Start by reading existing code carefully. Match the project" ++ apos ++
     "s patterns and conventions.",
   "Consider edge cases. Write defensive code that handles unexpected inputs."]

/-- `ClaudeCodeVendor.build_prompt` from claude_code.py: the base prompt, an
optional strategy variant chosen by `variant_index mod 5`, and, when
hypotheses exist, a learnings section, joined with newlines. -/
def build_prompt (base_prompt : String) (hypotheses : List Hypothesis)
    (variant_index : Nat) : String :=
  let strategy := PROMPT_STRATEGIES.getD (variant_index % PROMPT_STRATEGIES.length) ""
  let parts := [base_prompt] ++
    (if strategy ≠ "" then ["\nApproach: " ++ strategy] else []) ++
    (if hypotheses ≠ [] then
      ["\n--- Learnings from previous attempts ---"] ++
        hypotheses.map (fun h => "- " ++ h.analysis) ++
        ["Use these insights to improve your approach."]
     else [])
  joinNl parts

/-- `EvolutionEngine.create_initial_population` from evolution.py.  Task ids
come from `uuid.uuid4()`, an external randomness source embedded as the
injected `idGen`. -/
def create_initial_population (idGen : Nat → String) (base_prompt : String)
    (step_index : Nat) (population_size : Nat) : List AgentTask :=
  (List.range population_size).map fun i =>
    { id := idGen i
      generation := 0
      step_index := step_index
      prompt := build_prompt base_prompt [] i
      repo_snapshot_path := ""
      parent_hypotheses := [] }

/-- `EvolutionEngine.evolve` from evolution.py, with injected task ids. -/
def evolve (idGen : Nat → String) (base_prompt : String) (step_index : Nat)
    (generation : Nat) (population_size : Nat) (hypotheses : List Hypothesis) :
    List AgentTask :=
  (List.range population_size).map fun i =>
    { id := idGen i
      generation := generation
      step_index := step_index
      prompt := build_prompt base_prompt hypotheses i
      repo_snapshot_path := ""
      parent_hypotheses := hypotheses }

/-! ## Analyzer.analyze (src/darwincode/orchestrator/analyzer.py)

The oracle call `claude_query(...)` is external; its response text is an
explicit argument.  `json.loads` is modelled for the flat JSON objects with
string keys and string values that `analyze` expects; on every other
response shape (non-JSON text, arrays, nested objects, non-string values,
string escapes) the model reports a failure, where the Python code raises
from `json.loads` itself or from the subsequent `data.get` attribute
access — either way the exception propagates out of `analyze`. -/

/-- Stable descending insertion by evaluation score: the inserted element
goes before the first element whose score is not strictly greater.  This is
the behaviour of Python `list.sort(key=..., reverse=True)` (a stable sort). -/
def insertDesc (x : AgentResult × EvalResult) :
    List (AgentResult × EvalResult) → List (AgentResult × EvalResult)
  | [] => [x]
  | q :: qs => if q.2.score > x.2.score then q :: insertDesc x qs else x :: q :: qs

/-- `paired.sort(key=lambda x: x[1].score, reverse=True)` from analyzer.py. -/
def sortByScoreDesc (l : List (AgentResult × EvalResult)) :
    List (AgentResult × EvalResult) :=
  l.foldr insertDesc []

/-- The code-fence stripping in `Analyzer.analyze`: if the stripped response
starts with a backtick fence, drop its first and last lines; otherwise keep
the response unchanged. -/
def stripFence (text : String) : String :=
  if "```".data.isPrefixOf (pyStrip text).data then
    joinNl ((((splitNl (pyStrip text).data).map fun l => (⟨l⟩ : String)).drop 1).dropLast)
  else text

/-- Python whitespace skipped between JSON tokens. -/
def skipWs (cs : List Char) : List Char :=
  cs.dropWhile fun c => c = ' ' ∨ c = '\n' ∨ c = '\t' ∨ c = '\r'

/-- Parse one JSON string literal without escapes; returns the contents and
the remaining characters. -/
def parseStringLit : List Char → Option (String × List Char)
  | c :: rest =>
    if c = '"' ∧ ¬(rest.takeWhile (· ≠ '"')).any (· = '\\') then
      match rest.dropWhile (· ≠ '"') with
      | q :: tail => if q = '"' then some (⟨rest.takeWhile (· ≠ '"')⟩, tail) else none
      | [] => none
    else none
  | [] => none

/-- Parse the `"key": "value"` members of a flat JSON object, after the
opening brace. -/
def parseMembers : Nat → List Char → List (String × String) →
    Option (List (String × String))
  | 0, _, _ => none
  | fuel + 1, cs, acc =>
    match parseStringLit (skipWs cs) with
    | none => none
    | some (k, rest) =>
      match skipWs rest with
      | ':' :: rest2 =>
        match parseStringLit (skipWs rest2) with
        | none => none
        | some (v, rest3) =>
          match skipWs rest3 with
          | ',' :: rest4 => parseMembers fuel rest4 (acc ++ [(k, v)])
          | '}' :: tail =>
            if (skipWs tail).isEmpty then some (acc ++ [(k, v)]) else none
          | _ => none
      | _ => none

/-- `json.loads`, restricted to flat JSON objects with string keys and
string values (the response shape `analyze` expects); `none` models the
exception path. -/
def jsonLoads (s : String) : Option (List (String × String)) :=
  match skipWs s.data with
  | '{' :: rest =>
    match skipWs rest with
    | '}' :: tail => if (skipWs tail).isEmpty then some [] else none
    | more => parseMembers (more.length + 1) more []
  | _ => none

/-- `Analyzer.analyze` from analyzer.py, with the oracle's response text as
an argument.  The prompt built from the sorted results is only sent to the
oracle and does not affect the returned value, so it is not reproduced here.
A response that fails to parse as JSON makes `analyze` raise
(`Except.error`); otherwise the `analysis` and `prompt_delta` fields are
read with `data.get(key, "")` defaults, and the winner id is the task id of
the first element of the score-sorted pairing (empty when there are no
pairs). -/
def analyze (results : List AgentResult) (eval_results : List EvalResult)
    (generation : Nat) (oracleResponse : String) : Except String Hypothesis :=
  let paired := sortByScoreDesc (results.zip eval_results)
  match jsonLoads (stripFence oracleResponse) with
  | none => Except.error "json.loads: JSONDecodeError"
  | some data =>
    Except.ok
      { generation := generation
        winner_id := match paired with
          | [] => ""
          | p :: _ => p.1.task_id
        analysis := (data.lookup "analysis").getD ""
        prompt_delta := (data.lookup "prompt_delta").getD "" }

/-! ## Orchestrator generation loop (src/darwincode/orchestrator/orchestrator.py)

`Orchestrator._evolve_step` drives generations `0..max_generations-1`.
External effects per generation — the uuid-based task ids, the workflow
engine's execution and evaluation, and the analyzer's oracle call — are an
explicit environment indexed by generation; an `Except.error` from
`genAnalyze` embeds the exception `Analyzer.analyze` can raise, which
propagates out of `_evolve_step`. -/

/-- Environment of one `_evolve_step` call. -/
structure StepEnv where
  maxGenerations : Nat
  stepIndex : Nat
  initialPopulation : List AgentTask
  evolvePopulation : Nat → List Hypothesis → List AgentTask
  genResults : Nat → List AgentResult
  genEvals : Nat → List EvalResult
  genAnalyze : Nat → Except String Hypothesis

/-- What one `_evolve_step` call produces: the returned winner id, the
`GenerationRecord`s appended to `state.generations`, and the hypotheses
appended to `state.hypotheses`. -/
structure StepOutcome where
  winner : Option String
  records : List GenerationRecord
  newHypotheses : List Hypothesis
deriving DecidableEq

/-- Whether the best evaluation of a generation exists and passed —
`best_eval and best_eval.passed` in `_evolve_step`. -/
def bestPassed (evals : List EvalResult) : Bool :=
  match bestEval evals with
  | some b => b.passed
  | none => false

/-- The loop body of `_evolve_step`, by remaining iteration count: the
current generation index is `maxGenerations - remaining`.  On a passing best
evaluation the record's winner id is overwritten with that task id and the
loop returns immediately; otherwise, when later generations remain, the
analyzer runs (possibly raising) and its hypothesis is appended; the final
fall-through returns the last generation's `pick_winner` value. -/
def evolveStepAux (env : StepEnv) :
    Nat → List Hypothesis → List GenerationRecord → Option String →
    Except String StepOutcome
  | 0, hyps, recs, last => Except.ok ⟨last, recs, hyps⟩
  | r + 1, hyps, recs, _ =>
    let gen := env.maxGenerations - (r + 1)
    let tasks := if gen = 0 then env.initialPopulation else env.evolvePopulation gen hyps
    let results := env.genResults gen
    let evals := env.genEvals gen
    let winner := pick_winner results evals
    let rec0 : GenerationRecord :=
      ⟨gen, env.stepIndex, tasks, results, evals, winner, none⟩
    match bestEval evals with
    | some b =>
      if b.passed then
        Except.ok ⟨some b.task_id, recs ++ [{ rec0 with winner_id := some b.task_id }], hyps⟩
      else
        if gen < env.maxGenerations - 1 then
          match env.genAnalyze gen with
          | Except.error e => Except.error e
          | Except.ok h =>
            evolveStepAux env r (hyps ++ [h])
              (recs ++ [{ rec0 with hypothesis := some h }]) winner
        else
          evolveStepAux env r hyps (recs ++ [rec0]) winner
    | none =>
      if gen < env.maxGenerations - 1 then
        match env.genAnalyze gen with
        | Except.error e => Except.error e
        | Except.ok h =>
          evolveStepAux env r (hyps ++ [h])
            (recs ++ [{ rec0 with hypothesis := some h }]) winner
      else
        evolveStepAux env r hyps (recs ++ [rec0]) winner

/-- `Orchestrator._evolve_step`: run the loop over all generations.  (For
`max_generations = 0` the Python body would hit an unbound `winner_id`; every
theorem below assumes at least one generation.) -/
def evolveStep (env : StepEnv) : Except String StepOutcome :=
  evolveStepAux env env.maxGenerations [] [] none

/-- `Orchestrator.run` specialised to a single plan step: any exception
escaping the loop is caught once at the top and moves the run to `FAILED`
(orchestrator.py lines 105-109); otherwise the run completes.  Returns the
final run status and the step's winner id. -/
def runOneStep (env : StepEnv) : RunStatus × Option String :=
  match evolveStep env with
  | Except.error _ => (RunStatus.FAILED, none)
  | Except.ok out => (RunStatus.COMPLETED, out.winner)

/-! ## Run state persistence (src/darwincode/state/run_state.py)

`save` writes `json.dumps(_serialize_state(state))` and `load` reads
`_deserialize_state(json.loads(text))`; Python's JSON layer round-trips the
dictionaries (and their floats) exactly, so the composition is embedded as
`deserialize ∘ serialize` over typed mirrors of the serialized dictionaries.
The `Raw*` structures mirror the dictionary shapes `_serialize_*` emit: note
that `_serialize_gen` writes no `parent_hypotheses` key for tasks and no
`transcript_path` key for results, and truncates `output` and `details` to
their first 1000 characters. -/

/-- The Python exceptions relevant to `RunStateStore`. -/
inductive PyErr
  | jsonDecodeErr
  | keyErr
  | valueErr
deriving DecidableEq

/-- Serialized task dictionary (no `parent_hypotheses` key). -/
structure RawTask where
  id : String
  generation : Nat
  step_index : Nat
  prompt : String
  repo_snapshot_path : String
deriving DecidableEq

/-- Serialized result dictionary (status as its `.value` string, output
truncated, no `transcript_path` key). -/
structure RawResult where
  task_id : String
  status : String
  output : String
  patch_path : String
  duration_seconds : ℚ
deriving DecidableEq

/-- Serialized evaluation dictionary (details truncated). -/
structure RawEval where
  task_id : String
  passed : Bool
  score : ℚ
  details : String
deriving DecidableEq

/-- Serialized hypothesis dictionary. -/
structure RawHyp where
  generation : Nat
  winner_id : String
  analysis : String
  prompt_delta : String
deriving DecidableEq

/-- Serialized generation dictionary. -/
structure RawGen where
  generation : Nat
  step_index : Nat
  tasks : List RawTask
  results : List RawResult
  eval_results : List RawEval
  winner_id : Option String
  hypothesis : Option RawHyp
deriving DecidableEq

/-- Serialized run-state dictionary (status as its `.value` string;
plan-step dictionaries carry exactly the `PlanStep` fields). -/
structure RawState where
  id : String
  status : String
  current_step : Nat
  current_generation : Nat
  plan_steps : List PlanStep
  generations : List RawGen
  hypotheses : List RawHyp
deriving DecidableEq

/-- `AgentStatus(value)`: the enum member with that value, if any. -/
def agentStatusOfString (s : String) : Option AgentStatus :=
  if s = "pending" then some AgentStatus.PENDING
  else if s = "running" then some AgentStatus.RUNNING
  else if s = "success" then some AgentStatus.SUCCESS
  else if s = "failure" then some AgentStatus.FAILURE
  else if s = "timeout" then some AgentStatus.TIMEOUT
  else if s = "error" then some AgentStatus.ERROR
  else none

/-- `RunStatus(value)`: the enum member with that value, if any. -/
def runStatusOfString (s : String) : Option RunStatus :=
  if s = "pending" then some RunStatus.PENDING
  else if s = "running" then some RunStatus.RUNNING
  else if s = "completed" then some RunStatus.COMPLETED
  else if s = "failed" then some RunStatus.FAILED
  else if s = "cancelled" then some RunStatus.CANCELLED
  else none

/-- `_serialize_hypothesis` from run_state.py. -/
def serializeHypothesis (h : Hypothesis) : RawHyp :=
  ⟨h.generation, h.winner_id, h.analysis, h.prompt_delta⟩

/-- The task dictionaries `_serialize_gen` emits. -/
def serializeTask (t : AgentTask) : RawTask :=
  ⟨t.id, t.generation, t.step_index, t.prompt, t.repo_snapshot_path⟩

/-- The result dictionaries `_serialize_gen` emits (`r.output[:1000]`). -/
def serializeResult (r : AgentResult) : RawResult :=
  ⟨r.task_id, r.status.value, pyTake r.output 1000, r.patch_path, r.duration_seconds⟩

/-- The evaluation dictionaries `_serialize_gen` emits (`e.details[:1000]`). -/
def serializeEval (e : EvalResult) : RawEval :=
  ⟨e.task_id, e.passed, e.score, pyTake e.details 1000⟩

/-- `_serialize_gen` from run_state.py. -/
def serializeGen (g : GenerationRecord) : RawGen :=
  ⟨g.generation, g.step_index, g.tasks.map serializeTask,
   g.results.map serializeResult, g.eval_results.map serializeEval,
   g.winner_id, g.hypothesis.map serializeHypothesis⟩

/-- `_serialize_state` from run_state.py. -/
def serializeState (s : RunState) : RawState :=
  ⟨s.id, s.status.value, s.current_step, s.current_generation, s.plan_steps,
   s.generations.map serializeGen, s.hypotheses.map serializeHypothesis⟩

/-- A Python list comprehension whose element conversion may raise: the
first exception aborts the whole list. -/
def exceptMap {α β : Type} (f : α → Except PyErr β) : List α → Except PyErr (List β)
  | [] => Except.ok []
  | x :: xs =>
    match f x with
    | Except.error e => Except.error e
    | Except.ok y =>
      match exceptMap f xs with
      | Except.error e => Except.error e
      | Except.ok ys => Except.ok (y :: ys)

/-- `_deserialize_hypothesis` from run_state.py. -/
def deserializeHypothesis (h : RawHyp) : Hypothesis :=
  ⟨h.generation, h.winner_id, h.analysis, h.prompt_delta⟩

/-- Task reconstruction in `_deserialize_gen`: `parent_hypotheses` is not in
the dictionary, so the dataclass default `[]` applies. -/
def deserializeTask (t : RawTask) : AgentTask :=
  ⟨t.id, t.generation, t.step_index, t.prompt, t.repo_snapshot_path, []⟩

/-- Result reconstruction in `_deserialize_gen`: `AgentStatus(r["status"])`
raises `ValueError` on an unknown value; `transcript_path` defaults to
`None`. -/
def deserializeResult (r : RawResult) : Except PyErr AgentResult :=
  match agentStatusOfString r.status with
  | none => Except.error PyErr.valueErr
  | some st =>
    Except.ok ⟨r.task_id, st, r.output, r.patch_path, r.duration_seconds, none⟩

/-- Evaluation reconstruction in `_deserialize_gen`. -/
def deserializeEval (e : RawEval) : EvalResult :=
  ⟨e.task_id, e.passed, e.score, e.details⟩

/-- `_deserialize_gen` from run_state.py. -/
def deserializeGen (g : RawGen) : Except PyErr GenerationRecord :=
  match exceptMap deserializeResult g.results with
  | Except.error e => Except.error e
  | Except.ok results =>
    Except.ok
      ⟨g.generation, g.step_index, g.tasks.map deserializeTask, results,
       g.eval_results.map deserializeEval, g.winner_id,
       g.hypothesis.map deserializeHypothesis⟩

/-- `_deserialize_state` from run_state.py: `RunStatus(data["status"])`
raises `ValueError` on an unknown value. -/
def deserializeState (d : RawState) : Except PyErr RunState :=
  match runStatusOfString d.status with
  | none => Except.error PyErr.valueErr
  | some st =>
    match exceptMap deserializeGen d.generations with
    | Except.error e => Except.error e
    | Except.ok gens =>
      Except.ok
        ⟨d.id, st, d.current_step, d.current_generation, d.plan_steps, gens,
         d.hypotheses.map deserializeHypothesis⟩

/-- One file of the store directory, as `list_runs` sees it: its text fails
`json.loads` (`JSONDecodeError`), or decodes but lacks a key the
deserializer indexes (`KeyError`), or decodes to a complete run dictionary. -/
inductive StateFile
  | notJson
  | badShape
  | parsed (d : RawState)

/-- `RunStateStore.list_runs` from run_state.py over the (name-sorted) store
directory: the `try` block around `json.loads` + `_deserialize_state`
catches only `JSONDecodeError` and `KeyError`, skipping such files; any
other exception — such as the `ValueError` from an unknown status value —
propagates and aborts the listing. -/
def list_runs : List StateFile → Except PyErr (List RunState)
  | [] => Except.ok []
  | StateFile.notJson :: fs => list_runs fs
  | StateFile.badShape :: fs => list_runs fs
  | StateFile.parsed d :: fs =>
    match deserializeState d with
    | Except.error e => Except.error e
    | Except.ok s =>
      match list_runs fs with
      | Except.error e => Except.error e
      | Except.ok rest => Except.ok (s :: rest)

/-- What `load ∘ save` actually preserves: text fields truncated to 1000
characters, `parent_hypotheses` reset to `[]`, `transcript_path` reset to
`None`. -/
def scrubTask (t : AgentTask) : AgentTask :=
  { t with parent_hypotheses := [] }

/-- Result fields surviving the save/load round trip. -/
def scrubResult (r : AgentResult) : AgentResult :=
  { r with output := pyTake r.output 1000, transcript_path := none }

/-- Evaluation fields surviving the save/load round trip. -/
def scrubEval (e : EvalResult) : EvalResult :=
  { e with details := pyTake e.details 1000 }

/-- Generation fields surviving the save/load round trip. -/
def scrubGen (g : GenerationRecord) : GenerationRecord :=
  { g with tasks := g.tasks.map scrubTask
           results := g.results.map scrubResult
           eval_results := g.eval_results.map scrubEval }

/-- Run-state fields surviving the save/load round trip. -/
def scrubState (s : RunState) : RunState :=
  { s with generations := s.generations.map scrubGen }

/-- Decidable equality for `Except`, for evaluating concrete outcomes. -/
instance {ε α : Type} [DecidableEq ε] [DecidableEq α] : DecidableEq (Except ε α)
  | Except.ok a, Except.ok b =>
    if h : a = b then Decidable.isTrue (by rw [h])
    else Decidable.isFalse (fun hh => by cases hh; exact h rfl)
  | Except.ok _, Except.error _ => Decidable.isFalse (fun hh => by cases hh)
  | Except.error _, Except.ok _ => Decidable.isFalse (fun hh => by cases hh)
  | Except.error e, Except.error f =>
    if h : e = f then Decidable.isTrue (by rw [h])
    else Decidable.isFalse (fun hh => by cases hh; exact h rfl)

/-! ## Concrete examples used in counterexamples and witnesses -/

/-- A hypothesis value. -/
def hypEx : Hypothesis := ⟨0, "agent-b2", "Winner validated inputs", "Add validation"⟩

/-- A run state whose single generation holds a task carrying a parent
hypothesis and a result carrying a transcript path; every text field is far
below 1000 characters. -/
def stateEx : RunState :=
  ⟨"full-run", RunStatus.COMPLETED, 1, 2,
   [⟨0, "Step 1", "Do step 1"⟩],
   [⟨0, 0,
     [⟨"a-001", 0, 0, "Fix it", "/tmp/snap", [hypEx]⟩],
     [⟨"a-001", AgentStatus.SUCCESS, "Done", "/tmp/patch.diff", 30, some "/tmp/t.jsonl"⟩],
     [⟨"a-001", true, 1, "All tests passed"⟩],
     some "a-001", some hypEx⟩],
   [hypEx]⟩

/-- A serialized run document that deserializes cleanly. -/
def rawRunA : RawState :=
  serializeState ⟨"run-a", RunStatus.COMPLETED, 0, 0, [], [], []⟩

/-- A second serialized run document that deserializes cleanly. -/
def rawRunB : RawState :=
  serializeState ⟨"run-b", RunStatus.RUNNING, 1, 0, [], [], []⟩

/-- A run document that is well-formed JSON with every key present, but an
unrecognized status value — not a valid run document. -/
def rawRunBad : RawState :=
  { rawRunA with status := "bogus" }

/-- Failing result/evaluation pairs for loop scenarios. -/
def resA : AgentResult := ⟨"agent-a1", AgentStatus.SUCCESS, "ok output", "p.diff", 9, none⟩

/-- A failing sibling result. -/
def resB : AgentResult := ⟨"agent-b2", AgentStatus.FAILURE, "bad output", "p.diff", 7, none⟩

/-- A zero-score sibling result. -/
def resC : AgentResult := ⟨"agent-c3", AgentStatus.FAILURE, "worse output", "p.diff", 7, none⟩

/-- A passing evaluation with score `1.0`. -/
def evalA : EvalResult := ⟨"agent-a1", true, 1, "all pass"⟩

/-- A failing evaluation with score `0.4`. -/
def evalB : EvalResult := ⟨"agent-b2", false, mkRat 2 5, "2 of 5"⟩

/-- A failing evaluation with score `0.0`. -/
def evalC : EvalResult := ⟨"agent-c3", false, 0, "none pass"⟩

/-- The spec's end-to-end scenario: population 3, max generations 2, step 1,
generation 0 scoring `[1.0 pass, 0.4 fail, 0.0 fail]`. -/
def envPass : StepEnv :=
  { maxGenerations := 2
    stepIndex := 1
    initialPopulation := []
    evolvePopulation := fun _ _ => []
    genResults := fun _ => [resA, resB, resC]
    genEvals := fun _ => [evalA, evalB, evalC]
    genAnalyze := fun _ => Except.ok hypEx }

/-- The spec's no-winner scenario: max generations 2, every generation
produces only failing evaluations. -/
def envNoPass : StepEnv :=
  { envPass with
    genResults := fun _ => [resB, resC]
    genEvals := fun _ => [evalB, evalC] }

/-- The no-winner scenario where the generation-0 oracle response is not
JSON, so `analyze` raises. -/
def envBadOracle : StepEnv :=
  { envNoPass with
    genAnalyze := fun g => analyze [resB, resC] [evalB, evalC] g "oops not json" }

/-- The same scenario with a code-fenced JSON oracle response. -/
def envGoodOracle : StepEnv :=
  { envNoPass with
    genAnalyze := fun g =>
      analyze [resB, resC] [evalB, evalC] g
        "```json\n\x7b\"analysis\": \"aa\", \"prompt_delta\": \"bb\"\x7d\n```" }

/-! ## Theorems -/

/-- C4: for every Result whose status is neither success nor failure,
`evaluate` returns an Evaluation with `passed = false` and `score = 0.0`
without invoking the scoring command. -/
theorem C4_eval_short_circuit (env : EvalEnv) (result : AgentResult)
    (eval_spec : EvalSpec)
    (h1 : result.status ≠ AgentStatus.SUCCESS)
    (h2 : result.status ≠ AgentStatus.FAILURE) :
    evaluate env result eval_spec =
      ⟨⟨result.task_id, false, 0,
        "Agent status: " ++ result.status.value ++ ", skipping eval"⟩, false⟩ := by
  unfold evaluate
  simp [h1, h2]

/-- Witness for C4 at a concrete timed-out Result. -/
theorem C4_eval_short_circuit_witness :
    evaluate ⟨true, CmdOutcome.timedOut⟩
        ⟨"t1", AgentStatus.TIMEOUT, "partial output", "p.diff", 5, none⟩
        ⟨"pytest", 120, "exit-code", none, []⟩ =
      ⟨⟨"t1", false, 0, "Agent status: timeout, skipping eval"⟩, false⟩ := by
  rw [C4_eval_short_circuit _ _ _ (by decide) (by decide)]
  decide

/-- C6 as stated is false: under an unknown criteria value the pass flag
follows the exit code but the score is binary, not the partial-credit parse
of exit-code semantics.  Concretely, with exit code 1 and output
`"8 passed, 2 failed"`, criteria `"custom"` scores `0` while criteria
`"exit-code"` scores `4/5` on otherwise identical inputs. -/
theorem C6_counterexample :
    (evaluate ⟨true, CmdOutcome.completed 1 "8 passed, 2 failed" ""⟩
        ⟨"t1", AgentStatus.FAILURE, "o", "p", 5, none⟩
        ⟨"pytest", 120, "custom", none, []⟩).evalResult.score = 0 ∧
    (evaluate ⟨true, CmdOutcome.completed 1 "8 passed, 2 failed" ""⟩
        ⟨"t1", AgentStatus.FAILURE, "o", "p", 5, none⟩
        ⟨"pytest", 120, "exit-code", none, []⟩).evalResult.score = 4 / 5 ∧
    (evaluate ⟨true, CmdOutcome.completed 1 "8 passed, 2 failed" ""⟩
        ⟨"t1", AgentStatus.FAILURE, "o", "p", 5, none⟩
        ⟨"pytest", 120, "custom", none, []⟩).evalResult.passed = false := by
  refine ⟨by decide, ?_, by decide⟩
  have h : (evaluate ⟨true, CmdOutcome.completed 1 "8 passed, 2 failed" ""⟩
      ⟨"t1", AgentStatus.FAILURE, "o", "p", 5, none⟩
      ⟨"pytest", 120, "exit-code", none, []⟩).evalResult.score = mkRat 8 10 := by decide
  rw [h]
  norm_num [Rat.mkRat_eq_div]

/-- C6 amended: for every evaluation whose scoring command ran to
completion — under `exit-code` criteria, passed iff exit code `0`, with the
partial-credit parse as the non-passing score; under `output-match`
criteria, passed iff the configured substring occurs in combined
stdout+stderr, with a binary score; under any other criteria value, passed
iff exit code `0`, with a binary (not partial-credit) score. -/
theorem C6_success_criteria (env : EvalEnv) (result : AgentResult)
    (eval_spec : EvalSpec) (exitCode : Int) (stdout stderr : String)
    (hst : result.status = AgentStatus.SUCCESS ∨ result.status = AgentStatus.FAILURE)
    (hrepo : env.repoExists = true)
    (hout : env.outcome = CmdOutcome.completed exitCode stdout stderr) :
    (eval_spec.success_criteria = "exit-code" →
      evaluate env result eval_spec =
        ⟨⟨result.task_id, decide (exitCode = 0),
          if exitCode = 0 then 1 else parse_test_score (stdout ++ "\n" ++ stderr),
          pyTakeRight (stdout ++ "\n" ++ stderr) 2000⟩, true⟩) ∧
    (eval_spec.success_criteria = "output-match" →
      evaluate env result eval_spec =
        ⟨⟨result.task_id,
          containsSub (eval_spec.expected_output.getD "").data (stdout ++ "\n" ++ stderr).data,
          if containsSub (eval_spec.expected_output.getD "").data (stdout ++ "\n" ++ stderr).data
            then 1 else 0,
          pyTakeRight (stdout ++ "\n" ++ stderr) 2000⟩, true⟩) ∧
    (eval_spec.success_criteria ≠ "exit-code" →
      eval_spec.success_criteria ≠ "output-match" →
      evaluate env result eval_spec =
        ⟨⟨result.task_id, decide (exitCode = 0),
          if exitCode = 0 then 1 else 0,
          pyTakeRight (stdout ++ "\n" ++ stderr) 2000⟩, true⟩) := by
  unfold evaluate
  have hs : ¬(result.status ≠ AgentStatus.SUCCESS ∧ result.status ≠ AgentStatus.FAILURE) := by
    rcases hst with h | h <;> simp [h]
  refine ⟨?_, ?_, ?_⟩
  · intro hc
    simp only [hs, if_false, hrepo, hout, ite_false, ite_true, hc]
    split <;> simp_all
  · intro hc
    have hne : ("output-match" : String) ≠ "exit-code" := by decide
    simp only [hs, hrepo, hout, hc]
    simp [hne]
  · intro hc1 hc2
    simp only [hs, hrepo, hout]
    simp [hc1, hc2]

/-- Witness for C6 amended, at a concrete completed run under each of the
three criteria. -/
theorem C6_success_criteria_witness :
    evaluate ⟨true, CmdOutcome.completed 0 "ok done" ""⟩
        ⟨"t1", AgentStatus.SUCCESS, "o", "p", 5, none⟩
        ⟨"pytest", 120, "output-match", some "done", []⟩ =
      ⟨⟨"t1", true, 1, "ok done\n"⟩, true⟩ := by
  have h := (C6_success_criteria ⟨true, CmdOutcome.completed 0 "ok done" ""⟩
    ⟨"t1", AgentStatus.SUCCESS, "o", "p", 5, none⟩
    ⟨"pytest", 120, "output-match", some "done", []⟩ 0 "ok done" ""
    (Or.inl rfl) rfl rfl).2.1 rfl
  rw [h]
  decide

/-- The exact rational `mkRat p t` on naturals is the quotient `p / t`
(`0` when `t = 0`, matching Lean division by zero). -/
theorem mkRat_nat_div (p t : ℕ) : (mkRat p t : ℚ) = (p : ℚ) / (t : ℚ) := by
  rw [Rat.mkRat_eq_div]
  norm_num

/-- C5: partial-score extraction returns
`passed / (passed + failed + errors)` whenever at least one count pattern is
found (any order, multi-line), and `0.0` when none is found; in particular
`"8 passed, 2 failed"` yields `0.8`, `"10 passed"` yields `1.0`, and
`"some random output"` yields `0.0`. -/
theorem C5_parse_test_score (output : String) :
    (((findCount " passed".data output.data).isSome ∨
      (findCount " failed".data output.data).isSome ∨
      (findCount " error".data output.data).isSome) →
      parse_test_score output =
        (((findCount " passed".data output.data).getD 0 : ℚ)) /
          (((findCount " passed".data output.data).getD 0 +
            (findCount " failed".data output.data).getD 0 +
            (findCount " error".data output.data).getD 0 : ℕ) : ℚ)) ∧
    ((findCount " passed".data output.data = none ∧
      findCount " failed".data output.data = none ∧
      findCount " error".data output.data = none) →
      parse_test_score output = 0) ∧
    parse_test_score "8 passed, 2 failed" = 4 / 5 ∧
    parse_test_score "10 passed" = 1 ∧
    parse_test_score "some random output" = 0 := by
  refine ⟨?_, ?_, ?_, by decide, by decide⟩
  · intro _
    unfold parse_test_score
    by_cases ht :
        0 < (findCount " passed".data output.data).getD 0 +
          (findCount " failed".data output.data).getD 0 +
          (findCount " error".data output.data).getD 0
    · simp only [ht, if_true]
      rw [mkRat_nat_div]
    · have h0 : (findCount " passed".data output.data).getD 0 +
          (findCount " failed".data output.data).getD 0 +
          (findCount " error".data output.data).getD 0 = 0 := by omega
      have hp : (findCount " passed".data output.data).getD 0 = 0 := by omega
      simp [ht, h0, hp]
  · intro ⟨hp, hf, he⟩
    unfold parse_test_score
    simp [hp, hf, he]
  · have h : parse_test_score "8 passed, 2 failed" = mkRat 8 10 := by decide
    rw [h]
    norm_num [Rat.mkRat_eq_div]

/-- Witness for C5 at a concrete output containing both counts. -/
theorem C5_parse_test_score_witness :
    parse_test_score "3 passed, 1 failed" = ((3 : ℕ) : ℚ) / ((4 : ℕ) : ℚ) := by
  have h := (C5_parse_test_score "3 passed, 1 failed").1 (Or.inl (by decide))
  have hp : findCount " passed".data "3 passed, 1 failed".data = some 3 := by decide
  have hf : findCount " failed".data "3 passed, 1 failed".data = some 1 := by decide
  have he : findCount " error".data "3 passed, 1 failed".data = none := by decide
  rw [hp, hf, he] at h
  simpa using h

/-- Appending on the left is injective for strings. -/
theorem string_append_right_inj (a : String) {x y : String}
    (h : a ++ x = a ++ y) : x = y := by
  cases a with | mk ad =>
  cases x with | mk xd =>
  cases y with | mk yd =>
  have h' : ad ++ xd = ad ++ yd := congrArg String.data h
  exact congrArg String.mk (List.append_cancel_left h')

/-- The text `build_prompt` appends after the base prompt for variant `i`
(with no hypotheses). -/
def variantSuffix (i : Nat) : String :=
  if i = 0 then ""
  else "\n" ++ ("\nApproach: " ++ PROMPT_STRATEGIES.getD i "")

/-- With no hypotheses, the variant-`i` prompt is the base prompt followed
by `variantSuffix i`, for `i < 5`. -/
theorem build_prompt_nil_eq (base : String) (i : Nat) (h : i < 5) :
    build_prompt base [] i = base ++ variantSuffix i := by
  interval_cases i
  · show base = base ++ variantSuffix 0
    rw [show variantSuffix 0 = "" from rfl, String.append_empty]
  all_goals rw [variantSuffix]
  all_goals rw [if_neg (by omega), ← String.append_assoc]
  all_goals rfl

/-- C10 as stated is false: prompts repeat with period 5, so with
population size 6 the variant-0 and variant-5 tasks get identical prompts
and the produced prompt list is not pairwise distinct. -/
theorem C10_counterexample :
    build_prompt "Fix the bug" [] 5 = build_prompt "Fix the bug" [] 0 ∧
    ¬ ((create_initial_population (fun i => "agent-" ++ toString i) "Fix the bug" 0 6).map
        (fun t => t.prompt)).Nodup := by
  exact ⟨by decide, by decide⟩

/-- C10 amended: each produced task's prompt is the deterministic
`build_prompt` of (basePrompt, hypotheses, variantIndex), prompts repeat
with period 5 in the variant index, and for population sizes `1 ≤ N ≤ 5`
the prompts across variants `0..N-1` are pairwise distinct. -/
theorem C10_prompt_variants (idGen : Nat → String) (base : String)
    (step n : Nat) (_h1 : 1 ≤ n) (h5 : n ≤ 5) :
    ((create_initial_population idGen base step n).map (fun t => t.prompt) =
      (List.range n).map (fun i => build_prompt base [] i)) ∧
    (∀ (hyps : List Hypothesis) (i : Nat),
      build_prompt base hyps (i + 5) = build_prompt base hyps i) ∧
    ((create_initial_population idGen base step n).map (fun t => t.prompt)).Nodup := by
  have hmap : (create_initial_population idGen base step n).map (fun t => t.prompt) =
      (List.range n).map (fun i => build_prompt base [] i) := by
    simp [create_initial_population]
  refine ⟨hmap, ?_, ?_⟩
  · intro hyps i
    have hmod : (i + 5) % PROMPT_STRATEGIES.length = i % PROMPT_STRATEGIES.length := by
      rw [show PROMPT_STRATEGIES.length = 5 from rfl]
      omega
    unfold build_prompt
    rw [hmod]
  · rw [hmap]
    have key : ∀ i < n, ∀ j < n, build_prompt base [] i = build_prompt base [] j → i = j := by
      intro i hi j hj h
      have hi5 : i < 5 := lt_of_lt_of_le hi h5
      have hj5 : j < 5 := lt_of_lt_of_le hj h5
      rw [build_prompt_nil_eq base i hi5, build_prompt_nil_eq base j hj5] at h
      have hsuf := string_append_right_inj base h
      interval_cases i <;> interval_cases j <;> first | rfl | exact absurd hsuf (by decide)
    exact List.Nodup.map_on
      (fun i hi j hj => key i (List.mem_range.mp hi) j (List.mem_range.mp hj))
      (List.nodup_range n)

/-- Witness for C10 amended at population size 5. -/
theorem C10_prompt_variants_witness :
    ((create_initial_population (fun i => "agent-" ++ toString i) "Fix the bug" 0 5).map
      (fun t => t.prompt)).Nodup :=
  (C10_prompt_variants (fun i => "agent-" ++ toString i) "Fix the bug" 0 5
    (by decide) (by decide)).2.2

/-- Parsing back the serialized value string of an `AgentStatus` recovers
the member. -/
theorem agentStatusOfString_value (st : AgentStatus) :
    agentStatusOfString st.value = some st := by
  cases st <;> decide

/-- Parsing back the serialized value string of a `RunStatus` recovers the
member. -/
theorem runStatusOfString_value (st : RunStatus) :
    runStatusOfString st.value = some st := by
  cases st <;> decide

/-- `exceptMap` over a mapped list succeeds pointwise. -/
theorem exceptMap_map_ok {α β γ : Type} (h : α → β) (f : β → Except PyErr γ)
    (g : α → γ) (hfg : ∀ a, f (h a) = Except.ok (g a)) :
    ∀ l : List α, exceptMap f (l.map h) = Except.ok (l.map g) := by
  intro l
  induction l with
  | nil => rfl
  | cons a t ih => simp [exceptMap, hfg a, ih]

/-- A serialized result deserializes to the scrubbed result. -/
theorem deserializeResult_serializeResult (r : AgentResult) :
    deserializeResult (serializeResult r) = Except.ok (scrubResult r) := by
  unfold deserializeResult serializeResult
  rw [agentStatusOfString_value]
  rfl

/-- A serialized generation record deserializes to the scrubbed record. -/
theorem deserializeGen_serializeGen (g : GenerationRecord) :
    deserializeGen (serializeGen g) = Except.ok (scrubGen g) := by
  have ht : deserializeTask ∘ serializeTask = scrubTask := funext fun t => rfl
  have he : deserializeEval ∘ serializeEval = scrubEval := funext fun e => rfl
  have hh : deserializeHypothesis ∘ serializeHypothesis = id := funext fun h => rfl
  unfold deserializeGen serializeGen
  rw [exceptMap_map_ok serializeResult deserializeResult scrubResult
    deserializeResult_serializeResult]
  simp only [List.map_map, Option.map_map, ht, he, hh, List.map_id, Option.map_id]
  rfl

/-- C7 amended: for every constructed RunState, `save` followed by `load`
reconstructs the state with `Result.output` and `Evaluation.details`
truncated to their first 1000 characters — and additionally with every
task's `parent_hypotheses` reset to `[]` and every result's
`transcript_path` reset to `None`, because `_serialize_gen` writes neither
field. -/
theorem C7_roundtrip_scrubbed (s : RunState) :
    deserializeState (serializeState s) = Except.ok (scrubState s) := by
  have hh : deserializeHypothesis ∘ serializeHypothesis = id := funext fun h => rfl
  unfold deserializeState serializeState
  rw [runStatusOfString_value]
  rw [exceptMap_map_ok serializeGen deserializeGen scrubGen
    deserializeGen_serializeGen]
  simp only [List.map_map, hh, List.map_id]
  rfl

/-- C7 as stated is false: `stateEx` keeps every text field far below 1000
characters, yet the loaded state differs from the saved one — the task's
parent hypothesis and the result's transcript path are dropped. -/
theorem C7_counterexample :
    deserializeState (serializeState stateEx) ≠ Except.ok stateEx ∧
    (∀ g ∈ stateEx.generations, ∀ r ∈ g.results, r.output.length ≤ 1000) ∧
    (∀ g ∈ stateEx.generations, ∀ e ∈ g.eval_results, e.details.length ≤ 1000) := by
  exact ⟨by decide, by decide, by decide⟩

/-- C8 as stated is false: a store file that decodes to well-formed JSON
with every key present but an unrecognized `status` value is not a valid
run document, yet `list_runs` does not skip it — the `ValueError` from
`RunStatus(...)` escapes the `except (JSONDecodeError, KeyError)` clause
and the listing raises instead of returning the valid runs. -/
theorem C8_counterexample :
    list_runs [StateFile.parsed rawRunA, StateFile.parsed rawRunBad] =
      Except.error PyErr.valueErr ∧
    (∃ s, deserializeState rawRunA = Except.ok s) ∧
    deserializeState rawRunBad = Except.error PyErr.valueErr := by
  refine ⟨by decide, ⟨⟨"run-a", RunStatus.COMPLETED, 0, 0, [], [], []⟩, by decide⟩, by decide⟩

/-- C8 amended: over a store directory whose JSON-decodable files all
deserialize cleanly, `list_runs` returns exactly the deserialized valid
runs in order, skipping files that fail JSON decoding or lack a required
key, without raising. -/
theorem C8_list_runs_skips_corrupt (files : List StateFile)
    (hok : ∀ d, StateFile.parsed d ∈ files → ∃ s, deserializeState d = Except.ok s) :
    list_runs files =
      Except.ok (files.filterMap fun f =>
        match f with
        | StateFile.parsed d => (deserializeState d).toOption
        | _ => none) := by
  induction files with
  | nil => rfl
  | cons f fs ih =>
    have ihs : list_runs fs =
        Except.ok (fs.filterMap fun f =>
          match f with
          | StateFile.parsed d => (deserializeState d).toOption
          | _ => none) :=
      ih fun d hd => hok d (List.mem_cons_of_mem f hd)
    cases f with
    | notJson => simpa [list_runs, List.filterMap_cons] using ihs
    | badShape => simpa [list_runs, List.filterMap_cons] using ihs
    | parsed d =>
      obtain ⟨s, hs⟩ := hok d (List.mem_cons_self _ _)
      simp [list_runs, hs, ihs, List.filterMap_cons, Except.toOption]

/-- Witness for C8 amended: two valid documents among one non-JSON file,
one key-missing file, and nothing else, listed in order. -/
theorem C8_list_runs_skips_corrupt_witness :
    list_runs [StateFile.parsed rawRunA, StateFile.notJson, StateFile.badShape,
        StateFile.parsed rawRunB] =
      Except.ok [⟨"run-a", RunStatus.COMPLETED, 0, 0, [], [], []⟩,
        ⟨"run-b", RunStatus.RUNNING, 1, 0, [], [], []⟩] := by
  rw [C8_list_runs_skips_corrupt _ (by
    intro d hd
    simp only [List.mem_cons, List.not_mem_nil, or_false] at hd
    rcases hd with h | h | h | h
    · cases h
      exact ⟨⟨"run-a", RunStatus.COMPLETED, 0, 0, [], [], []⟩, by decide⟩
    · cases h
    · cases h
    · cases h
      exact ⟨⟨"run-b", RunStatus.RUNNING, 1, 0, [], [], []⟩, by decide⟩)]
  decide

/-- Unfolding `pyMaxAcc` one element at a time. -/
theorem pyMaxAcc_cons {α : Type} (sc : α → ℚ) (a x : α) (xs : List α) :
    pyMaxAcc sc a (x :: xs) = pyMaxAcc sc (if sc x > sc a then x else a) xs := rfl

/-- The Python `max` scan returns the first element attaining the maximal
key: every element's key is bounded by the result's, and the scanned list
splits around the result with strictly smaller keys before it. -/
theorem pyMaxAcc_spec {α : Type} (sc : α → ℚ) (l : List α) :
    ∀ a : α,
      (∀ x ∈ a :: l, sc x ≤ sc (pyMaxAcc sc a l)) ∧
      ∃ l1 l2, a :: l = l1 ++ pyMaxAcc sc a l :: l2 ∧
        ∀ x ∈ l1, sc x < sc (pyMaxAcc sc a l) := by
  induction l with
  | nil =>
    intro a
    refine ⟨?_, [], [], rfl, by simp⟩
    intro x hx
    rw [List.mem_singleton.mp hx]
    exact le_refl _
  | cons x xs ih =>
    intro a
    by_cases hx : sc x > sc a
    · have hfold : pyMaxAcc sc a (x :: xs) = pyMaxAcc sc x xs := by
        rw [pyMaxAcc_cons, if_pos hx]
      obtain ⟨hmax, l1, l2, hdec, hlt⟩ := ih x
      rw [hfold]
      refine ⟨?_, a :: l1, l2, ?_, ?_⟩
      · intro y hy
        rcases List.mem_cons.mp hy with rfl | hy'
        · exact le_of_lt (lt_of_lt_of_le hx (hmax x (List.mem_cons_self _ _)))
        · exact hmax y hy'
      · rw [List.cons_append, ← hdec]
      · intro y hy
        rcases List.mem_cons.mp hy with rfl | hy'
        · exact lt_of_lt_of_le hx (hmax x (List.mem_cons_self _ _))
        · exact hlt y hy'
    · have hfold : pyMaxAcc sc a (x :: xs) = pyMaxAcc sc a xs := by
        rw [pyMaxAcc_cons, if_neg hx]
      push_neg at hx
      obtain ⟨hmax, l1, l2, hdec, hlt⟩ := ih a
      rw [hfold]
      refine ⟨?_, ?_⟩
      · intro y hy
        rcases List.mem_cons.mp hy with rfl | hy'
        · exact hmax y (List.mem_cons_self _ _)
        rcases List.mem_cons.mp hy' with rfl | hy''
        · exact le_trans hx (hmax a (List.mem_cons_self _ _))
        · exact hmax y (List.mem_cons_of_mem _ hy'')
      · cases l1 with
        | nil =>
          simp only [List.nil_append] at hdec
          have ha : a = pyMaxAcc sc a xs := (List.cons_eq_cons.mp hdec).1
          refine ⟨[], x :: xs, ?_, by simp⟩
          rw [List.nil_append, ← ha]
        | cons b l1' =>
          rw [List.cons_append] at hdec
          obtain ⟨hab, hxs⟩ := List.cons_eq_cons.mp hdec
          refine ⟨a :: x :: l1', l2, ?_, ?_⟩
          · rw [List.cons_append, List.cons_append, ← hxs]
          · intro y hy
            have hbq : sc b < sc (pyMaxAcc sc a xs) := hlt b (List.mem_cons_self _ _)
            rcases List.mem_cons.mp hy with rfl | hy'
            · exact lt_of_le_of_lt (le_of_eq (congrArg sc hab)) hbq
            rcases List.mem_cons.mp hy' with rfl | hy''
            · exact lt_of_le_of_lt (le_trans hx (le_of_eq (congrArg sc hab))) hbq
            · exact hlt y (List.mem_cons_of_mem _ hy'')

/-- The second component of the pair-level `max` scan is the scan of the
second components. -/
theorem pyMaxAcc_snd {α β : Type} (sc : β → ℚ) :
    ∀ (ps : List (α × β)) (p : α × β),
      (pyMaxAcc (fun x => sc x.2) p ps).2 = pyMaxAcc sc p.2 (ps.map Prod.snd) := by
  intro ps
  induction ps with
  | nil => intro p; rfl
  | cons x xs ih =>
    intro p
    calc (pyMaxAcc (fun x => sc x.2) p (x :: xs)).2
        = (pyMaxAcc (fun x => sc x.2) (if sc x.2 > sc p.2 then x else p) xs).2 := rfl
      _ = pyMaxAcc sc (if sc x.2 > sc p.2 then x else p).2 (xs.map Prod.snd) := ih _
      _ = pyMaxAcc sc (if sc x.2 > sc p.2 then x.2 else p.2) (xs.map Prod.snd) := by
          rw [apply_ite Prod.snd]
      _ = pyMaxAcc sc p.2 ((x :: xs).map Prod.snd) := rfl

/-- C1: over paired result/evaluation lists with the data model's
non-negative scores, `pick_winner` returns null on an empty evaluation list
and when the maximum score is exactly `0.0`; otherwise it returns the task
id of the maximum-score entry, at the first input position attaining that
maximum (all earlier entries score strictly less). -/
theorem C1_pick_winner (results : List AgentResult) (eval_results : List EvalResult)
    (hlen : results.length = eval_results.length)
    (hnn : ∀ e ∈ eval_results, 0 ≤ e.score) :
    (eval_results = [] → pick_winner results eval_results = none) ∧
    (∀ b, bestEval eval_results = some b →
      (b.score = 0 → pick_winner results eval_results = none) ∧
      (b.score ≠ 0 →
        ∃ i, ∃ hi : i < eval_results.length, ∃ hi' : i < results.length,
          pick_winner results eval_results = some (results[i].task_id) ∧
          eval_results[i] = b ∧
          (∀ e ∈ eval_results, e.score ≤ b.score) ∧
          (∀ j, j < i → ∀ hj : j < eval_results.length,
            eval_results[j].score < b.score))) := by
  constructor
  · intro h
    rw [h]
    rfl
  intro b hb
  cases eval_results with
  | nil => exact absurd hb (by simp [bestEval])
  | cons e es' =>
  cases results with
  | nil => exact absurd hlen (by simp)
  | cons r rs' =>
  have hb' : pyMaxAcc (fun x => x.score) e es' = b := by
    have : bestEval (e :: es') = some (pyMaxAcc (fun x => x.score) e es') := rfl
    rw [this] at hb
    exact Option.some_injective _ hb
  have hlen' : rs'.length = es'.length := by
    simpa using hlen
  have hqb : (pyMaxAcc (fun x => x.2.score) (r, e) (rs'.zip es')).2 = b := by
    rw [pyMaxAcc_snd (fun x => x.score) (rs'.zip es') (r, e),
      List.map_snd_zip rs' es' (le_of_eq hlen'.symm)]
    exact hb'
  have hpw : pick_winner (r :: rs') (e :: es') =
      if (pyMaxAcc (fun x => x.2.score) (r, e) (rs'.zip es')).2.score > 0 then
        some (pyMaxAcc (fun x => x.2.score) (r, e) (rs'.zip es')).1.task_id
      else none := rfl
  obtain ⟨hmaxe, m1, m2, hdece, _⟩ := pyMaxAcc_spec (fun x => x.score) es' e
  have hbmem : b ∈ e :: es' := by
    rw [hdece, hb']
    exact List.mem_append_right _ (List.mem_cons_self _ _)
  constructor
  · intro hb0
    rw [hpw, hqb, hb0]
    simp
  · intro hbne
    have hbpos : 0 < b.score := lt_of_le_of_ne (hnn b hbmem) (Ne.symm hbne)
    obtain ⟨hmaxz, l1, l2, hdec, hlt⟩ :=
      pyMaxAcc_spec (fun x => x.2.score) (rs'.zip es') (r, e)
    have hzip : (r :: rs').zip (e :: es') = (r, e) :: rs'.zip es' := rfl
    have hzlen : ((r :: rs').zip (e :: es')).length = es'.length + 1 := by
      rw [List.length_zip]
      simp [hlen']
    have hdecz : (r :: rs').zip (e :: es') =
        l1 ++ pyMaxAcc (fun x => x.2.score) (r, e) (rs'.zip es') :: l2 := by
      rw [hzip, hdec]
    have hi : l1.length < (e :: es').length := by
      have := congrArg List.length hdecz
      rw [hzlen] at this
      simp at this
      simp
      omega
    have hi' : l1.length < (r :: rs').length := by
      have h1 : (r :: rs').length = (e :: es').length := hlen
      omega
    have hiz : l1.length < ((r :: rs').zip (e :: es')).length := by
      rw [hzlen]
      simpa using hi
    have hzi : ((r :: rs').zip (e :: es'))[l1.length] =
        pyMaxAcc (fun x => x.2.score) (r, e) (rs'.zip es') := by
      rw [List.getElem_of_eq hdecz]
      rw [List.getElem_append_right] <;> simp
    have hzi2 : ((r :: rs').zip (e :: es'))[l1.length] =
        ((r :: rs')[l1.length], (e :: es')[l1.length]) := by
      rw [List.getElem_zip]
    refine ⟨l1.length, hi, hi', ?_, ?_, ?_, ?_⟩
    · rw [hpw, hqb, if_pos hbpos]
      have : (r :: rs')[l1.length] =
          (pyMaxAcc (fun x => x.2.score) (r, e) (rs'.zip es')).1 :=
        congrArg Prod.fst (hzi2.symm.trans hzi)
      rw [this]
    · have : (e :: es')[l1.length] =
          (pyMaxAcc (fun x => x.2.score) (r, e) (rs'.zip es')).2 :=
        congrArg Prod.snd (hzi2.symm.trans hzi)
      rw [this, hqb]
    · intro x hx
      have := hmaxe x hx
      rw [hb'] at this
      exact this
    · intro j hj hje
      have hjz : j < ((r :: rs').zip (e :: es')).length := by
        rw [hzlen]
        simp at hje
        omega
      have hjl1 : j < l1.length := hj
      have hzj : ((r :: rs').zip (e :: es'))[j] = l1[j] := by
        rw [List.getElem_of_eq hdecz]
        rw [List.getElem_append_left]
      have hjr : j < (r :: rs').length := by
        have h1 : (r :: rs').length = (e :: es').length := hlen
        omega
      have hzj2 : ((r :: rs').zip (e :: es'))[j] =
          ((r :: rs')[j], (e :: es')[j]) := by
        rw [List.getElem_zip]
      have hmem : l1[j] ∈ l1 := List.getElem_mem _
      have := hlt _ hmem
      rw [← hzj, hzj2] at this
      simpa [hqb] using this

/-- Witness for C1 at a concrete tie: two entries share the maximal score
`0.5`, the first wins. -/
theorem C1_pick_winner_witness :
    pick_winner
        [⟨"t1", AgentStatus.SUCCESS, "", "", 1, none⟩,
         ⟨"t2", AgentStatus.FAILURE, "", "", 1, none⟩]
        [⟨"t1", true, mkRat 1 2, ""⟩, ⟨"t2", false, mkRat 1 2, ""⟩] = some "t1" := by
  have h := (C1_pick_winner
    [⟨"t1", AgentStatus.SUCCESS, "", "", 1, none⟩,
     ⟨"t2", AgentStatus.FAILURE, "", "", 1, none⟩]
    [⟨"t1", true, mkRat 1 2, ""⟩, ⟨"t2", false, mkRat 1 2, ""⟩]
    (by decide) (by decide)).2 ⟨"t1", true, mkRat 1 2, ""⟩ (by decide)
  obtain ⟨i, hi, hi', hpick, hbi, -, hfirst⟩ := h.2 (by decide)
  have hi0 : i = 0 := by
    rcases Nat.eq_or_lt_of_le (Nat.zero_le i) with h0 | h0
    · omega
    · have := hfirst 0 h0 (by decide)
      exact absurd this (by decide)
  subst hi0
  simpa using hpick

/-- One loop iteration with a passing best evaluation: the record is
appended with its winner id overwritten to the passing task and the loop
returns that task id immediately. -/
theorem evolveStepAux_pass (env : StepEnv) (r : Nat) (hyps : List Hypothesis)
    (recs : List GenerationRecord) (last : Option String) (b : EvalResult)
    (hbe : bestEval (env.genEvals (env.maxGenerations - (r + 1))) = some b)
    (hp : b.passed = true) :
    ∃ rec : GenerationRecord,
      evolveStepAux env (r + 1) hyps recs last =
        Except.ok ⟨some b.task_id, recs ++ [rec], hyps⟩ ∧
      rec.generation = env.maxGenerations - (r + 1) ∧
      rec.winner_id = some b.task_id ∧
      rec.hypothesis = none := by
  refine ⟨⟨env.maxGenerations - (r + 1), env.stepIndex,
    (if env.maxGenerations - (r + 1) = 0 then env.initialPopulation
     else env.evolvePopulation (env.maxGenerations - (r + 1)) hyps),
    env.genResults (env.maxGenerations - (r + 1)),
    env.genEvals (env.maxGenerations - (r + 1)),
    some b.task_id, none⟩, ?_, rfl, rfl, rfl⟩
  simp only [evolveStepAux]
  rw [hbe]
  simp [hp]

/-- One loop iteration whose best evaluation does not pass, in a non-final
generation with a succeeding analyzer call: the hypothesis and the record
are appended and the loop continues. -/
theorem evolveStepAux_continue (env : StepEnv) (r : Nat) (hyps : List Hypothesis)
    (recs : List GenerationRecord) (last : Option String) (h : Hypothesis)
    (hlt : env.maxGenerations - (r + 1) < env.maxGenerations - 1)
    (hnp : bestPassed (env.genEvals (env.maxGenerations - (r + 1))) = false)
    (hok : env.genAnalyze (env.maxGenerations - (r + 1)) = Except.ok h) :
    ∃ rec : GenerationRecord,
      evolveStepAux env (r + 1) hyps recs last =
        evolveStepAux env r (hyps ++ [h]) (recs ++ [rec])
          (pick_winner (env.genResults (env.maxGenerations - (r + 1)))
            (env.genEvals (env.maxGenerations - (r + 1)))) ∧
      rec.generation = env.maxGenerations - (r + 1) ∧
      rec.hypothesis = some h := by
  cases hbe : bestEval (env.genEvals (env.maxGenerations - (r + 1))) with
  | none =>
    refine ⟨⟨env.maxGenerations - (r + 1), env.stepIndex,
      (if env.maxGenerations - (r + 1) = 0 then env.initialPopulation
       else env.evolvePopulation (env.maxGenerations - (r + 1)) hyps),
      env.genResults (env.maxGenerations - (r + 1)),
      env.genEvals (env.maxGenerations - (r + 1)),
      pick_winner (env.genResults (env.maxGenerations - (r + 1)))
        (env.genEvals (env.maxGenerations - (r + 1))),
      some h⟩, ?_, rfl, rfl⟩
    simp only [evolveStepAux]
    rw [hbe]
    simp [hlt, hok]
  | some b =>
    have hbp : b.passed = false := by
      unfold bestPassed at hnp
      rw [hbe] at hnp
      exact hnp
    refine ⟨⟨env.maxGenerations - (r + 1), env.stepIndex,
      (if env.maxGenerations - (r + 1) = 0 then env.initialPopulation
       else env.evolvePopulation (env.maxGenerations - (r + 1)) hyps),
      env.genResults (env.maxGenerations - (r + 1)),
      env.genEvals (env.maxGenerations - (r + 1)),
      pick_winner (env.genResults (env.maxGenerations - (r + 1)))
        (env.genEvals (env.maxGenerations - (r + 1))),
      some h⟩, ?_, rfl, rfl⟩
    simp only [evolveStepAux]
    rw [hbe]
    simp [hbp, hlt, hok]

/-- One loop iteration whose best evaluation does not pass, in a non-final
generation whose analyzer call raises: the exception propagates. -/
theorem evolveStepAux_continue_err (env : StepEnv) (r : Nat) (hyps : List Hypothesis)
    (recs : List GenerationRecord) (last : Option String) (e : String)
    (hlt : env.maxGenerations - (r + 1) < env.maxGenerations - 1)
    (hnp : bestPassed (env.genEvals (env.maxGenerations - (r + 1))) = false)
    (herr : env.genAnalyze (env.maxGenerations - (r + 1)) = Except.error e) :
    evolveStepAux env (r + 1) hyps recs last = Except.error e := by
  cases hbe : bestEval (env.genEvals (env.maxGenerations - (r + 1))) with
  | none =>
    simp only [evolveStepAux]
    rw [hbe]
    simp [hlt, herr]
  | some b =>
    have hbp : b.passed = false := by
      unfold bestPassed at hnp
      rw [hbe] at hnp
      exact hnp
    simp only [evolveStepAux]
    rw [hbe]
    simp [hbp, hlt, herr]

/-- The final loop iteration without a passing best evaluation: the record
is appended with the `pick_winner` value and the loop falls through,
returning that value. -/
theorem evolveStepAux_final (env : StepEnv) (hyps : List Hypothesis)
    (recs : List GenerationRecord) (last : Option String)
    (hnp : bestPassed (env.genEvals (env.maxGenerations - 1)) = false) :
    ∃ rec : GenerationRecord,
      evolveStepAux env 1 hyps recs last =
        Except.ok
          ⟨pick_winner (env.genResults (env.maxGenerations - 1))
              (env.genEvals (env.maxGenerations - 1)),
            recs ++ [rec], hyps⟩ ∧
      rec.generation = env.maxGenerations - 1 ∧
      rec.winner_id = pick_winner (env.genResults (env.maxGenerations - 1))
        (env.genEvals (env.maxGenerations - 1)) ∧
      rec.hypothesis = none := by
  have hlt : ¬ (env.maxGenerations - (0 + 1) < env.maxGenerations - 1) := by omega
  cases hbe : bestEval (env.genEvals (env.maxGenerations - 1)) with
  | none =>
    refine ⟨⟨env.maxGenerations - 1, env.stepIndex,
      (if env.maxGenerations - 1 = 0 then env.initialPopulation
       else env.evolvePopulation (env.maxGenerations - 1) hyps),
      env.genResults (env.maxGenerations - 1),
      env.genEvals (env.maxGenerations - 1),
      pick_winner (env.genResults (env.maxGenerations - 1))
        (env.genEvals (env.maxGenerations - 1)),
      none⟩, ?_, rfl, rfl, rfl⟩
    simp only [evolveStepAux]
    rw [show env.maxGenerations - (0 + 1) = env.maxGenerations - 1 from rfl] at hlt ⊢
    rw [hbe]
    simp [hlt, evolveStepAux]
  | some b =>
    have hbp : b.passed = false := by
      unfold bestPassed at hnp
      rw [hbe] at hnp
      exact hnp
    refine ⟨⟨env.maxGenerations - 1, env.stepIndex,
      (if env.maxGenerations - 1 = 0 then env.initialPopulation
       else env.evolvePopulation (env.maxGenerations - 1) hyps),
      env.genResults (env.maxGenerations - 1),
      env.genEvals (env.maxGenerations - 1),
      pick_winner (env.genResults (env.maxGenerations - 1))
        (env.genEvals (env.maxGenerations - 1)),
      none⟩, ?_, rfl, rfl, rfl⟩
    simp only [evolveStepAux]
    rw [show env.maxGenerations - (0 + 1) = env.maxGenerations - 1 from rfl] at hlt ⊢
    rw [hbe]
    simp [hbp, hlt, evolveStepAux]

/-- Running the loop over its final `r` generations when none of them has a
passing best evaluation: one record per generation is appended (in
generation order), one hypothesis per non-final generation, and the
fall-through value is the last generation's `pick_winner`. -/
theorem evolveStepAux_no_pass (env : StepEnv) (hfn : Nat → Hypothesis) :
    ∀ r, 1 ≤ r → r ≤ env.maxGenerations →
      (∀ g, env.maxGenerations - r ≤ g → g < env.maxGenerations →
        bestPassed (env.genEvals g) = false) →
      (∀ g, env.maxGenerations - r ≤ g → g < env.maxGenerations - 1 →
        env.genAnalyze g = Except.ok (hfn g)) →
      ∀ (hyps : List Hypothesis) (recs : List GenerationRecord) (last : Option String),
        ∃ out : StepOutcome,
          evolveStepAux env r hyps recs last = Except.ok out ∧
          out.winner = pick_winner (env.genResults (env.maxGenerations - 1))
            (env.genEvals (env.maxGenerations - 1)) ∧
          out.records.length = recs.length + r ∧
          (out.records.map fun rc => rc.generation) =
            (recs.map fun rc => rc.generation) ++
              List.range' (env.maxGenerations - r) r ∧
          out.newHypotheses.length = hyps.length + (r - 1) := by
  intro r
  induction r with
  | zero => intro h1; exact absurd h1 (by omega)
  | succ r ih =>
    intro _ hG hnp hok hyps recs last
    rcases Nat.eq_zero_or_pos r with hr0 | hrpos
    · subst hr0
      obtain ⟨rec, heq, hgen, hwin, hhyp⟩ :=
        evolveStepAux_final env hyps recs last (hnp (env.maxGenerations - 1) (by omega) (by omega))
      refine ⟨_, heq, rfl, by simp, ?_, by simp⟩
      simp [hgen, List.range'_one]
    · obtain ⟨rec, heq, hgen, hhyp⟩ :=
        evolveStepAux_continue env r hyps recs last (hfn (env.maxGenerations - (r + 1)))
          (by omega)
          (hnp _ (by omega) (by omega))
          (hok _ (by omega) (by omega))
      obtain ⟨out, houteq, hw, hlen, hmap, hhlen⟩ :=
        ih hrpos (by omega)
          (fun g hg1 hg2 => hnp g (by omega) hg2)
          (fun g hg1 hg2 => hok g (by omega) hg2)
          (hyps ++ [hfn (env.maxGenerations - (r + 1))]) (recs ++ [rec]) _
      refine ⟨out, heq.trans houteq, hw, ?_, ?_, ?_⟩
      · simp at hlen
        omega
      · rw [hmap]
        simp only [List.map_append, List.map_cons, List.map_nil, hgen]
        rw [List.append_assoc]
        congr 1
        have hr1 : env.maxGenerations - r = (env.maxGenerations - (r + 1)) + 1 := by omega
        rw [List.range'_succ, hr1]
        rfl
      · simp at hhlen
        omega

/-- C3: with `G ≥ 1` generations, none of which produces a passing best
evaluation (and every non-final analyzer call succeeding, as in the spec
scenario), the loop runs all `G` generations, appends exactly `G`
GenerationRecords (for generations `0..G-1` in order), produces exactly
`G-1` hypotheses (none after the final generation), and returns the
`pick_winner` value of the last generation, which may be null. -/
theorem C3_exhaustion_returns_last (env : StepEnv) (hfn : Nat → Hypothesis)
    (hG : 1 ≤ env.maxGenerations)
    (hnp : ∀ g < env.maxGenerations, bestPassed (env.genEvals g) = false)
    (hok : ∀ g < env.maxGenerations - 1, env.genAnalyze g = Except.ok (hfn g)) :
    ∃ out : StepOutcome,
      evolveStep env = Except.ok out ∧
      out.winner = pick_winner (env.genResults (env.maxGenerations - 1))
        (env.genEvals (env.maxGenerations - 1)) ∧
      out.records.length = env.maxGenerations ∧
      (out.records.map fun rc => rc.generation) = List.range env.maxGenerations ∧
      out.newHypotheses.length = env.maxGenerations - 1 := by
  obtain ⟨out, heq, hw, hlen, hmap, hh⟩ :=
    evolveStepAux_no_pass env hfn env.maxGenerations hG (le_refl _)
      (fun g _ hg2 => hnp g hg2) (fun g _ hg2 => hok g hg2) [] [] none
  refine ⟨out, heq, hw, by simpa using hlen, ?_, by simpa using hh⟩
  rw [hmap, Nat.sub_self]
  simp [List.range_eq_range']

/-- Witness for C3 on the concrete no-winner scenario with `G = 2`: the
score-`0.4` failing task is still returned as best-available winner. -/
theorem C3_exhaustion_returns_last_witness :
    ∃ out : StepOutcome,
      evolveStep envNoPass = Except.ok out ∧
      out.winner = pick_winner (envNoPass.genResults 1) (envNoPass.genEvals 1) ∧
      out.records.length = 2 ∧
      (out.records.map fun rc => rc.generation) = List.range 2 ∧
      out.newHypotheses.length = 1 :=
  C3_exhaustion_returns_last envNoPass (fun _ => hypEx) (by decide)
    (fun g _ => by
      show bestPassed [evalB, evalC] = false
      decide)
    (fun g _ => rfl)

/-- Running the loop over its final `r` generations when the first `j` of
them fail and generation `maxGenerations - r + j` has a passing best
evaluation: the loop returns that task id immediately, having appended one
record per executed generation (the last with its winner id overwritten to
the passing task) and one hypothesis per failed generation. -/
theorem evolveStepAux_first_pass (env : StepEnv) (hfn : Nat → Hypothesis)
    (b : EvalResult) (hp : b.passed = true) :
    ∀ j r, j < r → r ≤ env.maxGenerations →
      (∀ g, env.maxGenerations - r ≤ g → g < env.maxGenerations - r + j →
        bestPassed (env.genEvals g) = false) →
      (∀ g, env.maxGenerations - r ≤ g → g < env.maxGenerations - r + j →
        env.genAnalyze g = Except.ok (hfn g)) →
      bestEval (env.genEvals (env.maxGenerations - r + j)) = some b →
      ∀ (hyps : List Hypothesis) (recs : List GenerationRecord) (last : Option String),
        ∃ (out : StepOutcome) (rec : GenerationRecord),
          evolveStepAux env r hyps recs last = Except.ok out ∧
          out.winner = some b.task_id ∧
          out.records.length = recs.length + (j + 1) ∧
          (out.records.map fun rc => rc.generation) =
            (recs.map fun rc => rc.generation) ++
              List.range' (env.maxGenerations - r) (j + 1) ∧
          out.records.getLast? = some rec ∧
          rec.generation = env.maxGenerations - r + j ∧
          rec.winner_id = some b.task_id ∧
          out.newHypotheses.length = hyps.length + j := by
  intro j
  induction j with
  | zero =>
    intro r hjr hrG hnp hok hbe hyps recs last
    cases r with
    | zero => omega
    | succ r' =>
      obtain ⟨rec, heq, hgen, hwin, hhyp⟩ :=
        evolveStepAux_pass env r' hyps recs last b (by simpa using hbe) hp
      refine ⟨_, rec, heq, rfl, by simp, ?_, List.getLast?_concat _,
        by simpa using hgen, hwin, by simp⟩
      simp [hgen, List.range'_one]
  | succ s ih =>
    intro r hjr hrG hnp hok hbe hyps recs last
    cases r with
    | zero => omega
    | succ r' =>
      have hlt : env.maxGenerations - (r' + 1) < env.maxGenerations - 1 := by omega
      obtain ⟨rec, heq, hgen, hhyp⟩ :=
        evolveStepAux_continue env r' hyps recs last
          (hfn (env.maxGenerations - (r' + 1))) hlt
          (hnp _ (by omega) (by omega))
          (hok _ (by omega) (by omega))
      obtain ⟨out, rec', houteq, hw, hlen, hmap, hlast, hgen', hwin', hh⟩ :=
        ih r' (by omega) (by omega)
          (fun g hg1 hg2 => hnp g (by omega) (by omega))
          (fun g hg1 hg2 => hok g (by omega) (by omega))
          (by
            have harith : env.maxGenerations - r' + s =
                env.maxGenerations - (r' + 1) + (s + 1) := by omega
            rw [harith]
            exact hbe)
          (hyps ++ [hfn (env.maxGenerations - (r' + 1))]) (recs ++ [rec]) _
      refine ⟨out, rec', heq.trans houteq, hw, ?_, ?_, hlast, ?_, hwin', ?_⟩
      · simp at hlen
        omega
      · rw [hmap]
        simp only [List.map_append, List.map_cons, List.map_nil, hgen]
        rw [List.append_assoc]
        congr 1
        rw [List.range'_succ]
        have harith : env.maxGenerations - r' =
            env.maxGenerations - (r' + 1) + 1 := by omega
        rw [harith]
        rfl
      · rw [hgen']
        omega
      · simp at hh
        omega

/-- C2: if generation `g` is the first whose best evaluation exists and
passed, the loop returns that evaluation's task id immediately: exactly
`g + 1` GenerationRecords are appended (for generations `0..g` in order, so
no later generation is executed), the last one — the only one for
generation `g` — carries that task id as its winner, and only the `g`
earlier failing generations produced hypotheses. -/
theorem C2_pass_returns_immediately (env : StepEnv) (hfn : Nat → Hypothesis)
    (b : EvalResult) (g : Nat) (hg : g < env.maxGenerations)
    (hnp : ∀ g2 < g, bestPassed (env.genEvals g2) = false)
    (hok : ∀ g2 < g, env.genAnalyze g2 = Except.ok (hfn g2))
    (hbe : bestEval (env.genEvals g) = some b)
    (hp : b.passed = true) :
    ∃ (out : StepOutcome) (rec : GenerationRecord),
      evolveStep env = Except.ok out ∧
      out.winner = some b.task_id ∧
      out.records.length = g + 1 ∧
      (out.records.map fun rc => rc.generation) = List.range (g + 1) ∧
      out.records.getLast? = some rec ∧
      rec.generation = g ∧
      rec.winner_id = some b.task_id ∧
      out.newHypotheses.length = g := by
  obtain ⟨out, rec, heq, hw, hlen, hmap, hlast, hgen, hwin, hh⟩ :=
    evolveStepAux_first_pass env hfn b hp g env.maxGenerations hg (le_refl _)
      (fun g2 hg1 hg2 => hnp g2 (by omega))
      (fun g2 hg1 hg2 => hok g2 (by omega))
      (by rw [Nat.sub_self, Nat.zero_add]; exact hbe) [] [] none
  refine ⟨out, rec, heq, hw, by simpa using hlen, ?_, hlast, by simpa using hgen,
    hwin, by simpa using hh⟩
  rw [hmap, Nat.sub_self]
  simp [List.range_eq_range']

/-- Witness for C2 on the spec's end-to-end scenario: population 3, `G = 2`,
generation 0 scores `[1.0 pass, 0.4 fail, 0.0 fail]` — the score-`1.0`
task id comes back at once with a single generation-0 record. -/
theorem C2_pass_returns_immediately_witness :
    ∃ (out : StepOutcome) (rec : GenerationRecord),
      evolveStep envPass = Except.ok out ∧
      out.winner = some "agent-a1" ∧
      out.records.length = 1 ∧
      (out.records.map fun rc => rc.generation) = List.range 1 ∧
      out.records.getLast? = some rec ∧
      rec.generation = 0 ∧
      rec.winner_id = some "agent-a1" ∧
      out.newHypotheses.length = 0 :=
  C2_pass_returns_immediately envPass (fun _ => hypEx) evalA 0 (by decide)
    (fun g2 hg2 => absurd hg2 (Nat.not_lt_zero g2))
    (fun g2 hg2 => absurd hg2 (Nat.not_lt_zero g2))
    (by
      show bestEval [evalA, evalB, evalC] = some evalA
      decide)
    (by decide)

/-- If the first `j` of the final `r` generations fail with succeeding
analyzer calls, and the analyzer call of generation `maxGenerations - r + j`
(still non-final, still failing) raises, the exception propagates out of
the whole loop. -/
theorem evolveStepAux_analyze_err (env : StepEnv) (hfn : Nat → Hypothesis)
    (e : String) :
    ∀ j r, j < r → r ≤ env.maxGenerations →
      (∀ g, env.maxGenerations - r ≤ g → g < env.maxGenerations - r + j →
        bestPassed (env.genEvals g) = false) →
      (∀ g, env.maxGenerations - r ≤ g → g < env.maxGenerations - r + j →
        env.genAnalyze g = Except.ok (hfn g)) →
      bestPassed (env.genEvals (env.maxGenerations - r + j)) = false →
      env.maxGenerations - r + j < env.maxGenerations - 1 →
      env.genAnalyze (env.maxGenerations - r + j) = Except.error e →
      ∀ (hyps : List Hypothesis) (recs : List GenerationRecord) (last : Option String),
        evolveStepAux env r hyps recs last = Except.error e := by
  intro j
  induction j with
  | zero =>
    intro r hjr hrG hnp hok hnpg hglt herr hyps recs last
    cases r with
    | zero => omega
    | succ r' =>
      exact evolveStepAux_continue_err env r' hyps recs last e
        (by omega) (by simpa using hnpg) (by simpa using herr)
  | succ s ih =>
    intro r hjr hrG hnp hok hnpg hglt herr hyps recs last
    cases r with
    | zero => omega
    | succ r' =>
      have harith : env.maxGenerations - r' + s =
          env.maxGenerations - (r' + 1) + (s + 1) := by omega
      obtain ⟨rec, heq, -, -⟩ :=
        evolveStepAux_continue env r' hyps recs last
          (hfn (env.maxGenerations - (r' + 1))) (by omega)
          (hnp _ (by omega) (by omega))
          (hok _ (by omega) (by omega))
      rw [heq]
      exact ih r' (by omega) (by omega)
        (fun g hg1 hg2 => hnp g (by omega) (by omega))
        (fun g hg1 hg2 => hok g (by omega) (by omega))
        (by rw [harith]; exact hnpg)
        (by omega)
        (by rw [harith]; exact herr) _ _ _

/-- C9 as stated is false: in a concrete run whose generation-0 oracle
response is the non-JSON text `"oops not json"`, `analyze` raises a JSON
decode error, the exception propagates, and the run aborts with status
`FAILED` — while the same run with a code-fenced JSON response completes.
A malformed analysis response does abort the run. -/
theorem C9_counterexample :
    envBadOracle.genAnalyze 0 = Except.error "json.loads: JSONDecodeError" ∧
    runOneStep envBadOracle = (RunStatus.FAILED, none) ∧
    runOneStep envGoodOracle = (RunStatus.COMPLETED, some "agent-b2") := by
  exact ⟨by decide, by decide, by decide⟩

/-- C9 amended: a code-fenced JSON oracle response during hypothesis
analysis is tolerated — the fence is stripped and missing fields default to
empty strings — but a response that fails JSON parsing after
fence-stripping makes `analyze` raise, the exception propagates out of the
generation loop, and the orchestrator's top-level handler aborts the run
with status `FAILED`: analysis extraction failure is fatal to the run just
as plan-decomposition extraction failure is. -/
theorem C9_analyze_error_aborts (env : StepEnv) (hfn : Nat → Hypothesis)
    (e : String) (g : Nat)
    (hnp : ∀ g2 < g, bestPassed (env.genEvals g2) = false)
    (hok : ∀ g2 < g, env.genAnalyze g2 = Except.ok (hfn g2))
    (hnpg : bestPassed (env.genEvals g) = false)
    (hglt : g < env.maxGenerations - 1)
    (herr : env.genAnalyze g = Except.error e) :
    evolveStep env = Except.error e ∧
    runOneStep env = (RunStatus.FAILED, none) ∧
    analyze [resB, resC] [evalB, evalC] 0
        "```json\n\x7b\"analysis\": \"aa\", \"prompt_delta\": \"bb\"\x7d\n```" =
      Except.ok ⟨0, "agent-b2", "aa", "bb"⟩ := by
  have herr2 : evolveStep env = Except.error e := by
    unfold evolveStep
    exact evolveStepAux_analyze_err env hfn e g env.maxGenerations (by omega)
      (le_refl _)
      (fun g2 hg1 hg2 => hnp g2 (by omega))
      (fun g2 hg1 hg2 => hok g2 (by omega))
      (by rw [Nat.sub_self, Nat.zero_add]; exact hnpg)
      (by omega)
      (by rw [Nat.sub_self, Nat.zero_add]; exact herr) [] [] none
  refine ⟨herr2, ?_, by decide⟩
  unfold runOneStep
  rw [herr2]

/-- Witness for C9 amended at the concrete bad-oracle run. -/
theorem C9_analyze_error_aborts_witness :
    evolveStep envBadOracle = Except.error "json.loads: JSONDecodeError" ∧
    runOneStep envBadOracle = (RunStatus.FAILED, none) ∧
    analyze [resB, resC] [evalB, evalC] 0
        "```json\n\x7b\"analysis\": \"aa\", \"prompt_delta\": \"bb\"\x7d\n```" =
      Except.ok ⟨0, "agent-b2", "aa", "bb"⟩ :=
  C9_analyze_error_aborts envBadOracle (fun _ => hypEx)
    "json.loads: JSONDecodeError" 0
    (fun g2 hg2 => absurd hg2 (Nat.not_lt_zero g2))
    (fun g2 hg2 => absurd hg2 (Nat.not_lt_zero g2))
    (by
      show bestPassed [evalB, evalC] = false
      decide)
    (by decide)
    (by decide)

end Darwincode
